import Mathlib

/-!
Verification of the autodiff toy framework in `extra_autodiff.ipynb`.

The notebook implements four differentiation strategies over one expression
graph: a finite-difference estimator (`gradients`), a symbolic expression
graph (`Const`/`Var`/`Add`/`Mul`) with forward-mode symbolic differentiation
(`gradient`), a dual-number arithmetic type (`DualNumber`), and a reverse-mode
variant of the graph classes whose `evaluate` caches each node's value and
whose `backpropagate` accumulates gradients into `Var.gradient`.

Numbers (Python ints and floats) are embedded as `ℚ`: every computation in the
notebook uses only `+`, `-`, `*`, `/` on values at which those operations are
exact. Python object identity of `Var` instances is embedded as a numeric `id`
field, distinct from the `name` field; the mutable `value` binding of each
`Var` object is an explicit environment `Nat → ℚ` keyed by `id`.
-/

namespace Autodiff

/-- Expression nodes, one constructor per class of the notebook's toy
computation graph (`Const`, `Var`, `Add`, `Mul`).  A `Var` carries its object
identity `id` and its `name`; the two forward-mode and reverse-mode class sets
define the same four node shapes. -/
inductive Expr where
  | Const (value : ℚ)
  | Var (id : Nat) (name : String)
  | Add (a b : Expr)
  | Mul (a b : Expr)
deriving DecidableEq

/-- Transcribes the `evaluate` methods of the forward-mode classes:
`Const.evaluate` returns `self.value`, `Var.evaluate` returns the variable's
current binding (`self.value`, here read from the environment `s`),
`Add.evaluate` returns `self.a.evaluate() + self.b.evaluate()`, and
`Mul.evaluate` returns `self.a.evaluate() * self.b.evaluate()`. -/
def evaluate (s : Nat → ℚ) : Expr → ℚ
  | Expr.Const value => value
  | Expr.Var id _ => s id
  | Expr.Add a b => evaluate s a + evaluate s b
  | Expr.Mul a b => evaluate s a * evaluate s b

/-- Transcribes the `__str__` methods: `Const` renders `str(self.value)`,
`Var` renders `self.name`, `Add` renders `"{} + {}".format(self.a, self.b)`,
and `Mul` renders `"({}) * ({})".format(self.a, self.b)`. -/
def toText : Expr → String
  | Expr.Const value => toString value
  | Expr.Var _ name => name
  | Expr.Add a b => toText a ++ " + " ++ toText b
  | Expr.Mul a b => "(" ++ toText a ++ ") * (" ++ toText b ++ ")"

/-- Transcribes the forward-mode `gradient` lambdas:
`Const.gradient = lambda self, var: Const(0)`;
`Var.gradient = lambda self, var: Const(1) if self is var else Const(0)`
(object identity, embedded as equality of the `id` field, the target being the
identity `v` of a `Var` object);
`Add.gradient = lambda self, var: Add(self.a.gradient(var), self.b.gradient(var))`;
`Mul.gradient = lambda self, var:
   Add(Mul(self.a, self.b.gradient(var)), Mul(self.a.gradient(var), self.b))`. -/
def gradient : Expr → Nat → Expr
  | Expr.Const _, _ => Expr.Const 0
  | Expr.Var id _, v => if id = v then Expr.Const 1 else Expr.Const 0
  | Expr.Add a b, v => Expr.Add (gradient a v) (gradient b v)
  | Expr.Mul a b, v =>
      Expr.Add (Expr.Mul a (gradient b v)) (Expr.Mul (gradient a v) b)

/-- The object identities of all `Var` nodes reachable from an expression. -/
def varsOf : Expr → List Nat
  | Expr.Const _ => []
  | Expr.Var id _ => [id]
  | Expr.Add a b => varsOf a ++ varsOf b
  | Expr.Mul a b => varsOf a ++ varsOf b

/-- State-passing transcription of the `gradient` lambdas, threading the
mutable per-`Var` value bindings through the calls in Python evaluation order
(for `Mul`, the first argument of the outer `Add` is built first, so
`self.b.gradient(var)` runs before `self.a.gradient(var)`).  None of the four
lambda bodies contains an assignment, so each case returns its state argument
exactly as the corresponding method does. -/
def gradientS : Expr → Nat → (Nat → ℚ) → Expr × (Nat → ℚ)
  | Expr.Const _, _, s => (Expr.Const 0, s)
  | Expr.Var id _, v, s => (if id = v then Expr.Const 1 else Expr.Const 0, s)
  | Expr.Add a b, v, s =>
      let ra := gradientS a v s
      let rb := gradientS b v ra.2
      (Expr.Add ra.1 rb.1, rb.2)
  | Expr.Mul a b, v, s =>
      let rb := gradientS b v s
      let ra := gradientS a v rb.2
      (Expr.Add (Expr.Mul a rb.1) (Expr.Mul ra.1 b), ra.2)

/-- The `Var` object `x = Var("x")` of the notebook, identity 0. -/
def xVar : Expr := Expr.Var 0 "x"

/-- The `Var` object `y = Var("y")` of the notebook, identity 1. -/
def yVar : Expr := Expr.Var 1 "y"

/-- The notebook's graph `f = Add(Mul(Mul(x, x), y), Add(y, Const(2)))`,
representing f(x,y) = x²y + y + 2; both operands of the inner `Mul` are the
same `x` object (same identity 0). -/
def fExpr : Expr := Expr.Add (Expr.Mul (Expr.Mul xVar xVar) yVar)
  (Expr.Add yVar (Expr.Const 2))

/-- The binding `x.value = 3; y.value = 4` as an environment keyed by object
identity. -/
def s34 : Nat → ℚ := fun i => if i = 0 then 3 else 4

/-- Reverse-mode nodes as left by `evaluate()`: each node carries the `value`
attribute that `backpropagate` later reads (`Const.value` is the constant,
`Var.value` the current binding, and `Add`/`Mul` cache
`self.value = ...` inside `evaluate`). -/
inductive AExpr where
  | Const (value : ℚ)
  | Var (id : Nat) (name : String) (value : ℚ)
  | Add (a b : AExpr) (value : ℚ)
  | Mul (a b : AExpr) (value : ℚ)
deriving DecidableEq

/-- The `value` attribute of an evaluated reverse-mode node, as read by
`Mul.backpropagate` (`self.a.value`, `self.b.value`). -/
def AExpr.val : AExpr → ℚ
  | AExpr.Const value => value
  | AExpr.Var _ _ value => value
  | AExpr.Add _ _ value => value
  | AExpr.Mul _ _ value => value

/-- Transcribes the reverse-mode `evaluate` methods, which besides returning
the node's value store it on the node (`self.value = self.a.evaluate() +
self.b.evaluate()` in `Add`, the product in `Mul`): the result is the tree of
nodes together with every cached `value`. -/
def revEvaluate (s : Nat → ℚ) : Expr → AExpr
  | Expr.Const value => AExpr.Const value
  | Expr.Var id name => AExpr.Var id name (s id)
  | Expr.Add a b =>
      let ea := revEvaluate s a
      let eb := revEvaluate s b
      AExpr.Add ea eb (ea.val + eb.val)
  | Expr.Mul a b =>
      let ea := revEvaluate s a
      let eb := revEvaluate s b
      AExpr.Mul ea eb (ea.val * eb.val)

/-- Transcribes the `backpropagate` methods, acting on the map from `Var`
identity to that object's `gradient` accumulator field:
`Const.backpropagate(gradient)` is `pass`;
`Var.backpropagate(gradient)` is `self.gradient += gradient`;
`Add.backpropagate(gradient)` propagates `gradient` to both operands;
`Mul.backpropagate(gradient)` calls
`self.a.backpropagate(gradient * self.b.value)` then
`self.b.backpropagate(gradient * self.a.value)`. -/
def backpropagate : AExpr → ℚ → (Nat → ℚ) → (Nat → ℚ)
  | AExpr.Const _, _, acc => acc
  | AExpr.Var id _ _, g, acc => fun j => if j = id then acc j + g else acc j
  | AExpr.Add a b _, g, acc => backpropagate b g (backpropagate a g acc)
  | AExpr.Mul a b _, g, acc =>
      backpropagate b (g * a.val) (backpropagate a (g * b.val) acc)

/-- Accumulator state of a heap of freshly constructed `Var` objects:
`Var.__init__` sets `self.gradient = 0`, so every accumulator is zero. -/
def freshAcc : Nat → ℚ := fun _ => 0

/-- The dual-number class: `DualNumber(value, eps)` with defaults 0.0. -/
structure DualNumber where
  value : ℚ
  eps : ℚ
deriving DecidableEq

/-- A Python numeric value as seen by the dual-number arithmetic: either a
bare number or a `DualNumber` instance. -/
inductive PyNum where
  | real (k : ℚ)
  | dual (d : DualNumber)
deriving DecidableEq

/-- Transcribes `DualNumber.to_dual`: a value with a `value` attribute (a
`DualNumber`) is returned unchanged, a bare number `n` becomes `cls(n)`, i.e.
`DualNumber(n, 0.0)` by the constructor defaults. -/
def DualNumber.to_dual : PyNum → DualNumber
  | PyNum.real k => ⟨k, 0⟩
  | PyNum.dual d => d

/-- Transcribes `DualNumber.__add__`:
`DualNumber(self.value + self.to_dual(b).value, self.eps + self.to_dual(b).eps)`. -/
def DualNumber.add (self : DualNumber) (b : PyNum) : DualNumber :=
  ⟨self.value + (DualNumber.to_dual b).value,
   self.eps + (DualNumber.to_dual b).eps⟩

/-- Transcribes `DualNumber.__radd__`: `self.to_dual(a).__add__(self)`. -/
def DualNumber.radd (a : PyNum) (self : DualNumber) : DualNumber :=
  (DualNumber.to_dual a).add (PyNum.dual self)

/-- Transcribes `DualNumber.__mul__`:
`DualNumber(self.value * self.to_dual(b).value,
            self.eps * self.to_dual(b).value + self.value * self.to_dual(b).eps)`. -/
def DualNumber.mul (self : DualNumber) (b : PyNum) : DualNumber :=
  ⟨self.value * (DualNumber.to_dual b).value,
   self.eps * (DualNumber.to_dual b).value +
     self.value * (DualNumber.to_dual b).eps⟩

/-- Transcribes `DualNumber.__rmul__`: `self.to_dual(a).__mul__(self)`. -/
def DualNumber.rmul (a : PyNum) (self : DualNumber) : DualNumber :=
  (DualNumber.to_dual a).mul (PyNum.dual self)

/-- Python's dispatch for `a + b` over bare numbers and `DualNumber`s: a
`DualNumber` left operand uses `__add__`, a bare left operand with a
`DualNumber` right operand falls back to `__radd__`, and two bare numbers add
as ordinary numbers. -/
def pyAdd : PyNum → PyNum → PyNum
  | PyNum.dual d, b => PyNum.dual (d.add b)
  | PyNum.real k, PyNum.dual d => PyNum.dual (DualNumber.radd (PyNum.real k) d)
  | PyNum.real k1, PyNum.real k2 => PyNum.real (k1 + k2)

/-- Python's dispatch for `a * b`, analogous to `pyAdd` with `__mul__` and
`__rmul__`. -/
def pyMul : PyNum → PyNum → PyNum
  | PyNum.dual d, b => PyNum.dual (d.mul b)
  | PyNum.real k, PyNum.dual d => PyNum.dual (DualNumber.rmul (PyNum.real k) d)
  | PyNum.real k1, PyNum.real k2 => PyNum.real (k1 * k2)

/-- The forward-mode `evaluate` methods run with `Var` values bound to
`DualNumber`s: `Const.evaluate` returns its bare value, `Var.evaluate` returns
the bound value, and `Add`/`Mul` combine with Python's `+`/`*` dispatch. -/
def evalDual (s : Nat → PyNum) : Expr → PyNum
  | Expr.Const value => PyNum.real value
  | Expr.Var id _ => s id
  | Expr.Add a b => pyAdd (evalDual s a) (evalDual s b)
  | Expr.Mul a b => pyMul (evalDual s a) (evalDual s b)

/-- The binding `x.value = DualNumber(3.0, 1.0); y.value = DualNumber(4.0)`. -/
def sDualX : Nat → PyNum :=
  fun i => if i = 0 then PyNum.dual ⟨3, 1⟩ else PyNum.dual ⟨4, 0⟩

/-- The binding `x.value = DualNumber(3.0); y.value = DualNumber(4.0, 1.0)`. -/
def sDualY : Nat → PyNum :=
  fun i => if i = 0 then PyNum.dual ⟨3, 0⟩ else PyNum.dual ⟨4, 1⟩

/-- The body of the `for idx in range(len(vars_list))` loop of `gradients`,
one recursive step per index: each iteration copies the input list
(`tweaked_vars = vars_list[:]`), perturbs entry `idx` of the copy
(`tweaked_vars[idx] += eps`), evaluates `func` on the copy and appends
`(tweaked_func_eval - base_func_eval) / eps`; the original `vars_list` is
passed unchanged to the next iteration because the write hits the copy. -/
def fdLoop (func : List ℚ → ℚ) (vars_list : List ℚ) (base_func_eval eps : ℚ) :
    List Nat → List ℚ
  | [] => []
  | idx :: rest =>
      let tweaked_vars := vars_list.set idx (vars_list.getD idx 0 + eps)
      let tweaked_func_eval := func tweaked_vars
      let derivative := (tweaked_func_eval - base_func_eval) / eps
      derivative :: fdLoop func vars_list base_func_eval eps rest

/-- Transcribes `gradients(func, vars_list, eps)`: evaluate
`base_func_eval = func(*vars_list)` once, then loop over
`range(len(vars_list))` collecting one forward-difference quotient per
dimension. -/
def gradients (func : List ℚ → ℚ) (vars_list : List ℚ) (eps : ℚ) : List ℚ :=
  fdLoop func vars_list (func vars_list) eps (List.range vars_list.length)

/-- A call of `gradients` that omits the `eps` argument uses the Python
default `eps=0.0001`. -/
def gradientsDefault (func : List ℚ → ℚ) (vars_list : List ℚ) : List ℚ :=
  gradients func vars_list (1 / 10000)

/-- The argument tuples `func` is applied to during one call of `gradients`,
in order: the single `base_func_eval = func(*vars_list)` call before the loop,
then one `func(*tweaked_vars)` call per loop iteration. -/
def fdCalls (vars_list : List ℚ) (eps : ℚ) : List (List ℚ) :=
  vars_list ::
    (List.range vars_list.length).map
      (fun idx => vars_list.set idx (vars_list.getD idx 0 + eps))

/-- State-passing transcription of the `gradients` loop, threading the
contents of the caller's `vars_list` object and returning them alongside the
result: the only assignment in the body targets `tweaked_vars`, a fresh copy
made by `vars_list[:]`, so each iteration hands the `vars_list` contents on
unchanged. -/
def fdLoopS (func : List ℚ → ℚ) (base_func_eval eps : ℚ) :
    List Nat → List ℚ → List ℚ × List ℚ
  | [], vars_list => ([], vars_list)
  | idx :: rest, vars_list =>
      let tweaked_vars := vars_list.set idx (vars_list.getD idx 0 + eps)
      let derivative := (func tweaked_vars - base_func_eval) / eps
      let r := fdLoopS func base_func_eval eps rest vars_list
      (derivative :: r.1, r.2)

/-- `gradients` with the final contents of the caller's `vars_list` object
returned next to the result list. -/
def gradientsS (func : List ℚ → ℚ) (vars_list : List ℚ) (eps : ℚ) :
    List ℚ × List ℚ :=
  fdLoopS func (func vars_list) eps (List.range vars_list.length) vars_list

theorem gradientS_eq (e : Expr) (v : Nat) (s : Nat → ℚ) :
    gradientS e v s = (gradient e v, s) := by
  induction e generalizing s with
  | Const c => rfl
  | Var id name => rfl
  | Add a b iha ihb => simp [gradientS, gradient, iha, ihb]
  | Mul a b iha ihb => simp [gradientS, gradient, iha, ihb]

theorem gradient_unreachable (e : Expr) (v : Nat) (hv : v ∉ varsOf e)
    (s : Nat → ℚ) : evaluate s (gradient e v) = 0 := by
  induction e with
  | Const c => rfl
  | Var id name =>
      simp only [varsOf, List.mem_singleton] at hv
      simp [gradient, evaluate, Ne.symm hv]
  | Add a b iha ihb =>
      simp only [varsOf, List.mem_append] at hv
      push_neg at hv
      simp [gradient, evaluate, iha hv.1, ihb hv.2]
  | Mul a b iha ihb =>
      simp only [varsOf, List.mem_append] at hv
      push_neg at hv
      simp [gradient, evaluate, iha hv.1, ihb hv.2]

theorem fdLoop_eq_map (func : List ℚ → ℚ) (vars_list : List ℚ)
    (base eps : ℚ) (l : List Nat) :
    fdLoop func vars_list base eps l =
      l.map (fun idx =>
        (func (vars_list.set idx (vars_list.getD idx 0 + eps)) - base) / eps) := by
  induction l with
  | nil => rfl
  | cons idx rest ih => simp [fdLoop, ih]

theorem fdLoopS_eq (func : List ℚ → ℚ) (base eps : ℚ) (l : List Nat)
    (vars_list : List ℚ) :
    fdLoopS func base eps l vars_list =
      (fdLoop func vars_list base eps l, vars_list) := by
  induction l with
  | nil => rfl
  | cons idx rest ih => simp [fdLoopS, fdLoop, ih]

/-- C1: evaluation follows the four node rules, always evaluating both
operands of a composite, and on the notebook's graph for
f(x,y) = x²y + y + 2 with x bound to 3 and y bound to 4 it returns 42 — in
the forward-mode classes and in the reverse-mode variant alike. -/
theorem evaluate_rules_and_f34 :
    (∀ s value, evaluate s (Expr.Const value) = value)
    ∧ (∀ s id name, evaluate s (Expr.Var id name) = s id)
    ∧ (∀ s a b, evaluate s (Expr.Add a b) = evaluate s a + evaluate s b)
    ∧ (∀ s a b, evaluate s (Expr.Mul a b) = evaluate s a * evaluate s b)
    ∧ evaluate s34 fExpr = 42
    ∧ (revEvaluate s34 fExpr).val = 42 := by
  refine ⟨fun _ _ => rfl, fun _ _ _ => rfl, fun _ _ _ => rfl,
    fun _ _ _ => rfl, ?_, ?_⟩
  · norm_num [evaluate, fExpr, xVar, yVar, s34]
  · norm_num [revEvaluate, AExpr.val, fExpr, xVar, yVar, s34]

/-- C2: forward-mode symbolic differentiation follows the four `gradient`
rules, with the product rule building `Add(Mul(a, b'), Mul(a', b))` in exactly
that order; on the f graph at (x=3, y=4) the gradient graphs evaluate to
∂f/∂x = 24 and ∂f/∂y = 10, and differentiating those graphs again yields the
Hessian [[8, 6], [6, 0]]. -/
theorem gradient_rules_and_values :
    (∀ value v, gradient (Expr.Const value) v = Expr.Const 0)
    ∧ (∀ id name v, gradient (Expr.Var id name) v =
        if id = v then Expr.Const 1 else Expr.Const 0)
    ∧ (∀ a b v, gradient (Expr.Add a b) v =
        Expr.Add (gradient a v) (gradient b v))
    ∧ (∀ a b v, gradient (Expr.Mul a b) v =
        Expr.Add (Expr.Mul a (gradient b v)) (Expr.Mul (gradient a v) b))
    ∧ evaluate s34 (gradient fExpr 0) = 24
    ∧ evaluate s34 (gradient fExpr 1) = 10
    ∧ evaluate s34 (gradient (gradient fExpr 0) 0) = 8
    ∧ evaluate s34 (gradient (gradient fExpr 0) 1) = 6
    ∧ evaluate s34 (gradient (gradient fExpr 1) 0) = 6
    ∧ evaluate s34 (gradient (gradient fExpr 1) 1) = 0 := by
  refine ⟨fun _ _ => rfl, fun _ _ _ => rfl, fun _ _ _ => rfl,
    fun _ _ _ => rfl, ?_, ?_, ?_, ?_, ?_, ?_⟩
  all_goals norm_num [evaluate, gradient, fExpr, xVar, yVar, s34]

/-- C3: reverse-mode backpropagation follows the node rules — `Mul` sends
`g * b.value` into `a` and `g * a.value` into `b` using the values cached by
the preceding `evaluate`, `Add` passes `g` unchanged to both operands, and
`Const` is a no-op — and on the freshly evaluated f graph at (x=3, y=4),
`backpropagate(1.0)` leaves accumulator 24 on x and 10 on y, both occurrences
of the shared x (identity 0) adding into the one accumulator. -/
theorem backpropagate_rules_and_values :
    (∀ c g acc, backpropagate (AExpr.Const c) g acc = acc)
    ∧ (∀ a b c g acc, backpropagate (AExpr.Add a b c) g acc =
        backpropagate b g (backpropagate a g acc))
    ∧ (∀ a b c g acc, backpropagate (AExpr.Mul a b c) g acc =
        backpropagate b (g * a.val) (backpropagate a (g * b.val) acc))
    ∧ backpropagate (revEvaluate s34 fExpr) 1 freshAcc 0 = 24
    ∧ backpropagate (revEvaluate s34 fExpr) 1 freshAcc 1 = 10 := by
  refine ⟨fun _ _ _ => rfl, fun _ _ _ _ _ => rfl, fun _ _ _ _ _ => rfl, ?_, ?_⟩
  all_goals norm_num [revEvaluate, backpropagate, AExpr.val, fExpr, xVar,
    yVar, s34, freshAcc]

/-- C4: dual-number addition and multiplication follow the dual algebra
`(a1,b1)+(a2,b2) = (a1+a2, b1+b2)` and
`(a1,b1)*(a2,b2) = (a1*a2, a1*b2 + a2*b1)`, a bare number `k` coerces to
`(k, 0)` symmetrically on either operand side, and evaluating the f graph
with x = DualNumber(3.0, 1.0), y = DualNumber(4.0) yields eps component 24
(value 42), while x = DualNumber(3.0), y = DualNumber(4.0, 1.0) yields eps
component 10. -/
theorem dual_number_rules_and_values :
    (∀ a1 b1 a2 b2 : ℚ, DualNumber.add ⟨a1, b1⟩ (PyNum.dual ⟨a2, b2⟩) =
        ⟨a1 + a2, b1 + b2⟩)
    ∧ (∀ a1 b1 a2 b2 : ℚ, DualNumber.mul ⟨a1, b1⟩ (PyNum.dual ⟨a2, b2⟩) =
        ⟨a1 * a2, a1 * b2 + a2 * b1⟩)
    ∧ (∀ k : ℚ, DualNumber.to_dual (PyNum.real k) = ⟨k, 0⟩)
    ∧ (∀ (k : ℚ) (d : DualNumber),
        DualNumber.add d (PyNum.real k) = DualNumber.add d (PyNum.dual ⟨k, 0⟩))
    ∧ (∀ (k : ℚ) (d : DualNumber),
        DualNumber.radd (PyNum.real k) d =
          DualNumber.add ⟨k, 0⟩ (PyNum.dual d))
    ∧ (∀ (k : ℚ) (d : DualNumber),
        DualNumber.mul d (PyNum.real k) = DualNumber.mul d (PyNum.dual ⟨k, 0⟩))
    ∧ (∀ (k : ℚ) (d : DualNumber),
        DualNumber.rmul (PyNum.real k) d =
          DualNumber.mul ⟨k, 0⟩ (PyNum.dual d))
    ∧ evalDual sDualX fExpr = PyNum.dual ⟨42, 24⟩
    ∧ evalDual sDualY fExpr = PyNum.dual ⟨42, 10⟩ := by
  refine ⟨?_, ?_, fun _ => rfl, fun _ _ => rfl, fun _ _ => rfl,
    fun _ _ => rfl, fun _ _ => rfl, ?_, ?_⟩
  · intro a1 b1 a2 b2
    simp [DualNumber.add, DualNumber.to_dual]
  · intro a1 b1 a2 b2
    simp [DualNumber.mul, DualNumber.to_dual]
    ring
  · norm_num [evalDual, pyAdd, pyMul, DualNumber.add, DualNumber.mul,
      DualNumber.radd, DualNumber.rmul, DualNumber.to_dual, fExpr, xVar,
      yVar, sDualX]
  · norm_num [evalDual, pyAdd, pyMul, DualNumber.add, DualNumber.mul,
      DualNumber.radd, DualNumber.rmul, DualNumber.to_dual, fExpr, xVar,
      yVar, sDualY]

/-- C5: the finite-difference `gradients` returns one entry per input
dimension, entry `idx` being
`(func(vars_list with entry idx increased by eps) - func(vars_list)) / eps`;
the default eps is 1e-4; and a call on an n-dimensional input applies `func`
exactly n + 1 times (the base evaluation plus one perturbed evaluation per
dimension). -/
theorem gradients_spec (func : List ℚ → ℚ) (vars_list : List ℚ) (eps : ℚ) :
    gradients func vars_list eps =
      (List.range vars_list.length).map (fun idx =>
        (func (vars_list.set idx (vars_list.getD idx 0 + eps)) -
          func vars_list) / eps)
    ∧ (gradients func vars_list eps).length = vars_list.length
    ∧ gradientsDefault func vars_list = gradients func vars_list (1 / 10000)
    ∧ (fdCalls vars_list eps).length = vars_list.length + 1
    ∧ gradients func vars_list eps =
        ((fdCalls vars_list eps).tail).map
          (fun p => (func p - func ((fdCalls vars_list eps).head!)) / eps) := by
  refine ⟨fdLoop_eq_map func vars_list (func vars_list) eps _, ?_, rfl, ?_, ?_⟩
  · rw [gradients, fdLoop_eq_map]
    simp
  · simp [fdCalls]
  · rw [gradients, fdLoop_eq_map]
    simp [fdCalls, List.map_map, Function.comp]

/-- C6 counterexample: the claim says every composite node's rendering wraps
its operands in parentheses, but `Add.__str__` does not: the graph
`Add(Var("x"), Var("y"))` renders as `x + y`, a string containing no
parenthesis character at all. -/
theorem add_render_unparenthesized :
    toText (Expr.Add (Expr.Var 0 "x") (Expr.Var 1 "y")) = "x + y"
    ∧ ¬ (Char.ofNat 40 ∈ "x + y".toList) := by
  exact ⟨rfl, by decide⟩

/-- C6 amended: `Mul` wraps both operands in parentheses, but `Add` joins its
operands with " + " without parenthesizing them, so only multiplication
grouping is explicit in the output; on the notebook's f graph the rendering is
`((x) * (x)) * (y) + y + 2`. -/
theorem render_shapes :
    (∀ a b, toText (Expr.Mul a b) =
      "(" ++ toText a ++ ") * (" ++ toText b ++ ")")
    ∧ (∀ a b, toText (Expr.Add a b) = toText a ++ " + " ++ toText b)
    ∧ toText fExpr = "((x) * (x)) * (y) + y + 2" := by
  refine ⟨fun _ _ => rfl, fun _ _ => rfl, by decide⟩

/-- C7: `gradient` is pure and deterministic: run over the explicit state of
`Var` value bindings it returns the state untouched, so the original graph
evaluates identically before and after the call at the unchanged bindings,
and two calls with identical arguments return the same graph — hence graphs
that evaluate to the same value at every binding. -/
theorem gradient_pure (e : Expr) (v : Nat) (s : Nat → ℚ) :
    (gradientS e v s).2 = s
    ∧ evaluate (gradientS e v s).2 e = evaluate s e
    ∧ (gradientS e v s).1 = gradient e v
    ∧ (gradientS e v (gradientS e v s).2).1 = (gradientS e v s).1
    ∧ (∀ t : Nat → ℚ, evaluate t (gradientS e v (gradientS e v s).2).1 =
        evaluate t (gradientS e v s).1) := by
  simp [gradientS_eq]

/-- C8: `Var.gradient` decides the target by object identity, not by name or
value — `Const(1)` exactly when the node is the target object — so two
distinct `Var` objects sharing a name have independent gradients, and
differentiating any graph with respect to a `Var` identity not reachable from
it yields a graph evaluating to zero at every binding. -/
theorem var_gradient_identity :
    (∀ id name v, gradient (Expr.Var id name) v =
      if id = v then Expr.Const 1 else Expr.Const 0)
    ∧ (∀ id1 id2 name, id1 ≠ id2 →
        gradient (Expr.Var id1 name) id2 = Expr.Const 0
        ∧ gradient (Expr.Var id1 name) id1 = Expr.Const 1)
    ∧ (∀ e v, v ∉ varsOf e → ∀ s, evaluate s (gradient e v) = 0) := by
  refine ⟨fun _ _ _ => rfl, fun id1 id2 name h => ⟨?_, ?_⟩,
    fun e v hv s => gradient_unreachable e v hv s⟩
  · simp [gradient, h]
  · simp [gradient]

/-- C8 witness: the two `Var` objects of identities 0 and 1 both named "x"
have independent gradients, and differentiating the f graph with respect to
the unreachable identity 7 evaluates to zero. -/
theorem var_gradient_identity_witness :
    gradient (Expr.Var 0 "x") 1 = Expr.Const 0
    ∧ gradient (Expr.Var 0 "x") 0 = Expr.Const 1
    ∧ evaluate s34 (gradient fExpr 7) = 0 :=
  ⟨(var_gradient_identity.2.1 0 1 "x" (by decide)).1,
   (var_gradient_identity.2.1 0 1 "x" (by decide)).2,
   var_gradient_identity.2.2 fExpr 7 (by decide) s34⟩

/-- C9: a freshly constructed `Var` has accumulator 0; `backpropagate(g)`
replaces the accumulator by its previous value plus `g` and never resets it;
backpropagating a seed through a graph that is a single fresh `Var` leaves
the accumulator exactly equal to the seed; and a second pass without a reset
adds on top of the first. -/
theorem accumulator_fresh_and_additive :
    (∀ id, freshAcc id = 0)
    ∧ (∀ id name value g acc, backpropagate (AExpr.Var id name value) g acc id =
        acc id + g)
    ∧ (∀ id name s g,
        backpropagate (revEvaluate s (Expr.Var id name)) g freshAcc id = g)
    ∧ (∀ id name s g1 g2,
        backpropagate (revEvaluate s (Expr.Var id name)) g2
          (backpropagate (revEvaluate s (Expr.Var id name)) g1 freshAcc) id =
          g1 + g2) := by
  refine ⟨fun _ => rfl, fun id name value g acc => by simp [backpropagate],
    fun id name s g => by simp [revEvaluate, backpropagate, freshAcc],
    fun id name s g1 g2 => by simp [revEvaluate, backpropagate, freshAcc]⟩

/-- C10: `gradients` never mutates its input list: threading the contents of
the caller's `vars_list` object through the call, the final contents equal
the initial ones (every perturbation is applied to the private copy
`tweaked_vars = vars_list[:]`), and the returned derivatives are those of
`gradients`. -/
theorem gradients_no_mutation (func : List ℚ → ℚ) (vars_list : List ℚ)
    (eps : ℚ) :
    (gradientsS func vars_list eps).2 = vars_list
    ∧ (gradientsS func vars_list eps).1 = gradients func vars_list eps := by
  constructor
  · rw [gradientsS, fdLoopS_eq]
  · rw [gradientsS, fdLoopS_eq, gradients]

end Autodiff
